import Mathlib

/-!
Verification development for the `todo_indicator.py` tray application.

Python strings are embedded as `List Char`; a file's content is one such
list, and the Python 3 semantics of the string and file operations used by
the program are translated function by function below.  The program runs
under Python 3 (the 2017 header says it was updated for it), so
`print(x,)` inside a `fileinput` in-place loop means `print(x)`: it writes
`x` followed by one extra newline character.
-/

/-- A Python string, embedded as its list of characters. -/
abbrev PyStr := List Char

/-- Python `str.isspace` on the ASCII whitespace characters that
`str.strip()` removes: space, tab, newline, carriage return, vertical tab,
form feed.  The program's data is ASCII text, so the additional Unicode
whitespace characters of CPython are not modelled. -/
def isPySpace (c : Char) : Bool :=
  c == ' ' || c == '\t' || c == '\n' || c == '\r' ||
    c == Char.ofNat 11 || c == Char.ofNat 12

/-- Leading-whitespace removal, the left half of Python `str.strip()`. -/
def stripLeading (l : PyStr) : PyStr :=
  l.dropWhile isPySpace

/-- Trailing-whitespace removal, the right half of Python `str.strip()`. -/
def stripTrailing : PyStr → PyStr
  | [] => []
  | a :: l =>
    match stripTrailing l with
    | [] => if isPySpace a then [] else [a]
    | b :: t => a :: b :: t

/-- Python `str.strip()`: drop whitespace from both ends. -/
def pyStrip (l : PyStr) : PyStr :=
  stripLeading (stripTrailing l)

/-- Python `s.split("\n")` (`todo_indicator.py:118`): split at every
newline; the result always has one more entry than the string has
newlines, so `"".split("\n") == [""]` and a trailing newline yields a
final empty entry. -/
def splitNl : PyStr → List PyStr
  | [] => [[]]
  | c :: cs =>
    if c = '\n' then [] :: splitNl cs
    else
      match splitNl cs with
      | [] => [[c]]
      | l :: ls => (c :: l) :: ls

/-- The lines of a file as iterated by Python's `fileinput`
(`todo_indicator.py:132,140`): each line keeps its terminating newline,
and a last line without a newline is returned as-is.  An empty file has
no lines. -/
def splitLinesKeep : PyStr → List PyStr
  | [] => []
  | c :: cs =>
    if c = '\n' then ['\n'] :: splitLinesKeep cs
    else
      match splitLinesKeep cs with
      | [] => [[c]]
      | l :: ls => (c :: l) :: ls

/-- Whether `hay` begins with `needle` (helper for Python substring
search). -/
def listStartsWith : PyStr → PyStr → Bool
  | _, [] => true
  | [], _ :: _ => false
  | h :: hs, n :: ns => h == n && listStartsWith hs ns

/-- Whether `needle` occurs contiguously inside `hay`; this is
`hay.find(needle) != -1` in Python.  Every string contains the empty
needle. -/
def containsSub (needle : PyStr) : PyStr → Bool
  | [] => listStartsWith [] needle
  | c :: t => listStartsWith (c :: t) needle || containsSub needle t

/-- `TodoIndicator.check_item_for_filter` (`todo_indicator.py:212-216`):
keep a list item iff `list_item.find(task_filter)` is not `-1`, i.e. iff
the filter string occurs in the item. -/
def check_item_for_filter (task_filter : PyStr) (list_item : PyStr) : Bool :=
  containsSub task_filter list_item

/-- The two-character completion marker `"x "`. -/
def xMark : PyStr := ['x', ' ']

/-- The sort key of `load_todo_file` (`todo_indicator.py:122`):
`'z' * 10 + a if a[:2] == 'x ' else a`. -/
def pyKey (a : PyStr) : PyStr :=
  if a.take 2 = xMark then List.replicate 10 'z' ++ a else a

/-- Python's `<` on strings: lexicographic comparison by code point, a
proper prefix being smaller. -/
def pyStrLt : PyStr → PyStr → Bool
  | [], [] => false
  | [], _ :: _ => true
  | _ :: _, [] => false
  | a :: as, b :: bs =>
    if a < b then true else if b < a then false else pyStrLt as bs

/-- Comparison of two items by their sort keys, as `sorted(..., key=...)`
performs it. -/
def keyLt (a b : PyStr) : Bool :=
  pyStrLt (pyKey a) (pyKey b)

/-- Insert an element into an already-sorted accumulator, after any
element whose key is not strictly greater — so elements arriving later
land after equal-keyed earlier ones, which is exactly the stability
guarantee of Python's `sorted`. -/
def insertStable (a : PyStr) : List PyStr → List PyStr
  | [] => [a]
  | b :: bs => if keyLt a b then a :: b :: bs else b :: insertStable a bs

/-- Python's `sorted(l, key=pyKey)`: a stable sort by `pyKey`.  A stable
sort's output is uniquely determined by the key order and the input
order, so this insertion sort computes the same list as CPython's
timsort. -/
def pySorted (l : List PyStr) : List PyStr :=
  l.foldl (fun acc a => insertStable a acc) []

/-- The pure core of `TodoIndicator.load_todo_file`
(`todo_indicator.py:118-122`) applied to the text read from the file:
split into lines, keep the lines accepted by `check_item_for_filter`,
and stably sort by the key that prepends ten `'z'` characters to
checked-off (`"x "`-prefixed) lines. -/
def load_todo_list (task_filter : PyStr) (content : PyStr) : List PyStr :=
  pySorted (List.filter (check_item_for_filter task_filter) (splitNl content))

/-- `TodoIndicator.load_todo_file` (`todo_indicator.py:114-125`) with its
error path: `openResult` is `none` when opening (or reading) the file
raises `IOError`, in which case the program prints
`"Error opening file:\n" + self.todo_filename` and calls `sys.exit(1)`;
the `Except` error value carries that message and the exit status. -/
def load_todo_file (todo_filename task_filter : PyStr)
    (openResult : Option PyStr) : Except (PyStr × Nat) (List PyStr) :=
  match openResult with
  | none => Except.error (("Error opening file:\n").data ++ todo_filename, 1)
  | some content => Except.ok (load_todo_list task_filter content)

/-- One iteration of the loop body of
`TodoIndicator.check_off_item_with_label` (`todo_indicator.py:132-136`)
under Python 3: the line (which still carries its newline, if any) is
prefixed with `"x "` when its stripped form equals the stripped label,
and `print` appends one further newline. -/
def check_off_line (label line : PyStr) : PyStr :=
  (if pyStrip line = pyStrip label then xMark ++ line else line) ++ ['\n']

/-- `TodoIndicator.check_off_item_with_label` (`todo_indicator.py:127-136`)
as a function from old file content to new file content: every
`fileinput` line is passed through `check_off_line` and the outputs are
concatenated. -/
def check_off_item_with_label (label content : PyStr) : PyStr :=
  List.flatten ((splitLinesKeep content).map (check_off_line label))

/-- `TodoIndicator.remove_checked_off_items` (`todo_indicator.py:138-144`)
as a function from old file content to new file content: a `fileinput`
line whose first two characters are `"x "` is dropped, any other line is
printed back (under Python 3, with one extra newline appended). -/
def remove_checked_off_items (content : PyStr) : PyStr :=
  List.flatten ((splitLinesKeep content).filterMap
    (fun line => if line.take 2 = xMark then none else some (line ++ ['\n'])))

/-- The mutable state of a `TodoIndicator` object that the claims refer
to: the absolute path of the watched file (`self.todo_filename`), the
filter string (`self.task_filter`), the current on-disk content of the
todo file, the dirty flag (`self.list_updated_flag`), the loaded list
(`self.todo_list`) and the todo-item section of the tray menu.  Each
menu entry carries its label and its sensitivity (clickable) flag. -/
structure IndicatorState where
  todo_filename : PyStr
  task_filter : PyStr
  fileContent : PyStr
  list_updated_flag : Bool
  todo_list : List PyStr
  menu : List (PyStr × Bool)
deriving DecidableEq

/-- Assignment `self.list_updated_flag = b`, leaving every other field
untouched. -/
def set_list_updated_flag (s : IndicatorState) (b : Bool) : IndicatorState :=
  IndicatorState.mk s.todo_filename s.task_filter s.fileContent b
    s.todo_list s.menu

/-- An external write replacing the todo file's content, leaving the
in-memory state untouched. -/
def write_file (s : IndicatorState) (content : PyStr) : IndicatorState :=
  IndicatorState.mk s.todo_filename s.task_filter content
    s.list_updated_flag s.todo_list s.menu

/-- The todo-item section of the menu built by
`TodoIndicator.build_indicator` (`todo_indicator.py:182-195`): one entry
per loaded item, made insensitive (grayed out) when the item's first two
characters are `"x "`; an empty list yields a single insensitive
placeholder entry.  The separator and the four static entries that
follow are not part of the claims and are omitted. -/
def build_menu (todo_list : List PyStr) : List (PyStr × Bool) :=
  if todo_list = [] then
    [(("[ No items. Click \x27Edit\x27 to add some! ]").data, false)]
  else
    todo_list.map (fun item => (item, !(item.take 2 = xMark : Bool)))

/-- `TodoIndicator.build_indicator` (`todo_indicator.py:170-210`) on the
success path of the file load: reload `self.todo_list` from the file and
rebuild the menu from it.  The dirty flag is not touched.  (The failure
path of the load, which exits the process, is modelled by
`load_todo_file`.) -/
def build_indicator (s : IndicatorState) : IndicatorState :=
  IndicatorState.mk s.todo_filename s.task_filter s.fileContent
    s.list_updated_flag
    (load_todo_list s.task_filter s.fileContent)
    (build_menu (load_todo_list s.task_filter s.fileContent))

/-- `TodoIndicator.update_if_todo_file_changed` (`todo_indicator.py:89-100`):
the poll tick.  Besides the state after the tick it returns the number
of `build_indicator` calls the tick performed and the tick's return
value (`True` keeps the GLib timeout armed). -/
def update_if_todo_file_changed (s : IndicatorState) :
    IndicatorState × Nat × Bool :=
  if s.list_updated_flag then
    (set_list_updated_flag (build_indicator s) false, 1, true)
  else
    (s, 0, true)

/-- `TodoIndicator.process_inotify_event` (`todo_indicator.py:102-112`):
the watcher callback sets the dirty flag when the event's `pathname`
equals the watched file's absolute path and does nothing otherwise. -/
def process_inotify_event (s : IndicatorState) (pathname : PyStr) :
    IndicatorState :=
  if pathname = s.todo_filename then set_list_updated_flag s true else s

/-- `TodoIndicator.check_off_handler` (`todo_indicator.py:146-149`):
rewrite the file through `check_off_item_with_label`, then rebuild. -/
def check_off_handler (s : IndicatorState) (label : PyStr) : IndicatorState :=
  build_indicator (write_file s (check_off_item_with_label label s.fileContent))

/-- `TodoIndicator.clear_completed_handler` (`todo_indicator.py:155-158`):
rewrite the file through `remove_checked_off_items`, then rebuild. -/
def clear_completed_handler (s : IndicatorState) : IndicatorState :=
  build_indicator (write_file s (remove_checked_off_items s.fileContent))

/-- The ordering relation claim C3 asserts of the loaded list: wherever a
checked-off (`"x "`-prefixed) item precedes another item, that later item
is checked off too — equivalently, every non-completed item appears
before every completed one. -/
def nonCompletedFirst (l : List PyStr) : Prop :=
  ∀ i j, (hi : i < l.length) → (hj : j < l.length) → i < j →
    (l.get ⟨i, hi⟩).take 2 = xMark → (l.get ⟨j, hj⟩).take 2 = xMark

/-- The full ordering claim C3 makes about a loaded list: non-completed
items all before completed ones, and each of the two groups internally in
alphabetical (code-point lexicographic) order. -/
def claimedOrder (l : List PyStr) : Prop :=
  nonCompletedFirst l ∧
  l.Pairwise (fun a b =>
    a.take 2 = xMark → b.take 2 = xMark → pyStrLt b a = false) ∧
  l.Pairwise (fun a b =>
    a.take 2 ≠ xMark → b.take 2 ≠ xMark → pyStrLt b a = false)

example : splitNl (("a\nb\n").data) = [("a").data, ("b").data, []] := by decide

example : splitLinesKeep (("a\nb").data) = [("a\n").data, ("b").data] := by decide

example : check_off_item_with_label (("a").data) (("a\nb\n").data) =
    (("x a\n\nb\n\n").data) := by decide

example : remove_checked_off_items (("x a\nb\n").data) = (("b\n\n").data) := by
  decide

example : load_todo_list [] (("a\n").data) = [[], ("a").data] := by decide

example : load_todo_list [] (("zzzzzzzzzzz\nx a\n").data) =
    [[], ("x a").data, ("zzzzzzzzzzz").data] := by decide

/-- C1: the claim says a check-off rewrites the file with each
whitespace-trimmed match of the label prefixed by `"x "` and no other
line altered.  On the file `"a\nb\n"` with label `"a"` the code instead
produces `"x a\n\nb\n\n"`: under Python 3 the `print(line,)` of the
rewrite loop appends an extra newline to every line, so the non-matching
line `"b\n"` is altered as well. -/
theorem C1_check_off_extra_newline :
    check_off_item_with_label (("a").data) (("a\nb\n").data) =
      (("x a\n\nb\n\n").data) ∧
    (("x a\n\nb\n\n").data) ≠ (("x a\nb\n").data) := by
  constructor
  · decide
  · decide

/-- C2: the claim says clearing completed items removes exactly the
`"x "`-prefixed lines and leaves every other line byte-identical.  On
the file `"x a\nb\n"` the code removes the checked line but writes the
kept line back as `"b\n\n"`: the Python 3 `print(line,)` appends an
extra newline, so the kept line is not byte-identical. -/
theorem C2_clear_completed_extra_newline :
    remove_checked_off_items (("x a\nb\n").data) = (("b\n\n").data) ∧
    (("b\n\n").data) ≠ (("b\n").data) := by
  constructor
  · decide
  · decide

/-- C6: the claim (and the source comment "kill empty items/lines") says
empty lines never appear in the loaded list.  With the default empty
filter string, `check_item_for_filter` accepts every line — every string
contains the empty substring — so the empty final line produced by
splitting `"a\n"` survives into the loaded list. -/
theorem C6_empty_line_survives_load :
    load_todo_list [] (("a\n").data) = [[], ("a").data] ∧
    [] ∈ load_todo_list [] (("a\n").data) := by
  constructor
  · decide
  · decide

/-- C4: one poll tick returns `True` (so the GLib timeout stays armed);
when the dirty flag is set it performs exactly one `build_indicator`
call and clears the flag, and when the flag is unset it performs none
and leaves the state unchanged. -/
theorem C4_poll_tick (s : IndicatorState) :
    (update_if_todo_file_changed s).2.2 = true ∧
    (s.list_updated_flag = true →
      (update_if_todo_file_changed s).2.1 = 1 ∧
      (update_if_todo_file_changed s).1 =
        set_list_updated_flag (build_indicator s) false ∧
      (update_if_todo_file_changed s).1.list_updated_flag = false) ∧
    (s.list_updated_flag = false →
      (update_if_todo_file_changed s).2.1 = 0 ∧
      (update_if_todo_file_changed s).1 = s) := by
  cases h : s.list_updated_flag <;>
    simp [update_if_todo_file_changed, h, set_list_updated_flag]

/-- C4 witness: a tick on a concrete dirty state returns `True`, clears
the flag, and counts one rebuild; on the same state with the flag unset
it counts none. -/
theorem C4_poll_tick_witness :
    (update_if_todo_file_changed
      (IndicatorState.mk (("t").data) [] (("a\n").data) true [] [])).2.2 =
        true ∧
    (update_if_todo_file_changed
      (IndicatorState.mk (("t").data) [] (("a\n").data) true [] [])).2.1 = 1 ∧
    (update_if_todo_file_changed
      (IndicatorState.mk (("t").data) [] (("a\n").data)
        true [] [])).1.list_updated_flag = false ∧
    (update_if_todo_file_changed
      (IndicatorState.mk (("t").data) [] (("a\n").data) false [] [])).2.1 =
        0 := by
  have h1 := C4_poll_tick
    (IndicatorState.mk (("t").data) [] (("a\n").data) true [] [])
  have h2 := C4_poll_tick
    (IndicatorState.mk (("t").data) [] (("a\n").data) false [] [])
  exact ⟨h1.1, (h1.2.1 rfl).1, (h1.2.1 rfl).2.2, (h2.2.2 rfl).1⟩

/-- C5: the watcher callback sets the dirty flag exactly when the
event's pathname equals the watched file's absolute path, changing no
other field of the state; an event for any other path leaves the whole
state (the flag included) unchanged. -/
theorem C5_inotify_event (s : IndicatorState) (pathname : PyStr) :
    (pathname = s.todo_filename →
      (process_inotify_event s pathname).list_updated_flag = true ∧
      (process_inotify_event s pathname).todo_filename = s.todo_filename ∧
      (process_inotify_event s pathname).task_filter = s.task_filter ∧
      (process_inotify_event s pathname).fileContent = s.fileContent ∧
      (process_inotify_event s pathname).todo_list = s.todo_list ∧
      (process_inotify_event s pathname).menu = s.menu) ∧
    (pathname ≠ s.todo_filename → process_inotify_event s pathname = s) := by
  by_cases h : pathname = s.todo_filename <;>
    simp [process_inotify_event, h, set_list_updated_flag]

/-- C5 witness: a matching event on a concrete state sets the flag and
keeps the file content; a non-matching event leaves the state equal to
itself. -/
theorem C5_inotify_event_witness :
    (process_inotify_event
      (IndicatorState.mk (("/p/todo.txt").data) [] (("a\n").data) false [] [])
      (("/p/todo.txt").data)).list_updated_flag = true ∧
    (process_inotify_event
      (IndicatorState.mk (("/p/todo.txt").data) [] (("a\n").data) false [] [])
      (("/p/todo.txt").data)).fileContent = (("a\n").data) ∧
    process_inotify_event
      (IndicatorState.mk (("/p/todo.txt").data) [] (("a\n").data) false [] [])
      (("/p/other").data) =
      IndicatorState.mk (("/p/todo.txt").data) [] (("a\n").data)
        false [] [] := by
  have h1 := (C5_inotify_event
    (IndicatorState.mk (("/p/todo.txt").data) [] (("a\n").data) false [] [])
    (("/p/todo.txt").data)).1 rfl
  have h2 := (C5_inotify_event
    (IndicatorState.mk (("/p/todo.txt").data) [] (("a\n").data) false [] [])
    (("/p/other").data)).2 (by decide)
  exact ⟨h1.1, h1.2.2.2.1, h2⟩

theorem stripTrailing_cons_of_not_space (a : Char) (l : PyStr)
    (h : isPySpace a = false) :
    stripTrailing (a :: l) = a :: stripTrailing l := by
  cases hl : stripTrailing l <;> simp [stripTrailing, hl, h]

theorem stripTrailing_append_space (c : Char) (hc : isPySpace c = true)
    (l : PyStr) : stripTrailing (l ++ [c]) = stripTrailing l := by
  induction l with
  | nil => simp [stripTrailing, hc]
  | cons a l ih =>
    show stripTrailing (a :: (l ++ [c])) = stripTrailing (a :: l)
    simp [stripTrailing, ih]

theorem pyStrip_append_newline (l : PyStr) :
    pyStrip (l ++ ['\n']) = pyStrip l := by
  simp [pyStrip, stripTrailing_append_space '\n' (by decide) l]

theorem pyStrip_cons_of_not_space (a : Char) (l : PyStr)
    (h : isPySpace a = false) :
    pyStrip (a :: l) = a :: stripTrailing l := by
  simp [pyStrip, stripTrailing_cons_of_not_space a l h, stripLeading,
    List.dropWhile_cons, h]

theorem splitLinesKeep_append (l rest : PyStr) (h : ∀ c ∈ l, c ≠ '\n') :
    splitLinesKeep (l ++ '\n' :: rest) =
      (l ++ ['\n']) :: splitLinesKeep rest := by
  induction l with
  | nil => simp [splitLinesKeep]
  | cons a l ih =>
    have ha : a ≠ '\n' := h a (by simp)
    have ih2 := ih (fun c hc => h c (by simp [hc]))
    simp [splitLinesKeep, ha, ih2]

/-- C10: the check-off loop prefixes `"x "` to every whitespace-trimmed
match of the label without testing whether the line is already checked
off, so it is not idempotent: checking off a plain item and then
clicking the resulting `"x "`-prefixed entry yields a line that begins
`"x x "` (the four trailing newlines are the extra ones Python 3's
`print` adds on each pass). -/
theorem C10_check_off_not_idempotent (item : PyStr)
    (h : ∀ c ∈ item, c ≠ '\n') :
    check_off_item_with_label (xMark ++ item)
      (check_off_item_with_label item (item ++ ['\n'])) =
      xMark ++ xMark ++ item ++ ['\n', '\n', '\n', '\n'] := by
  have hx : ∀ c ∈ ('x' :: ' ' :: item), c ≠ '\n' := by
    intro c hc
    simp at hc
    rcases hc with rfl | rfl | hc
    · decide
    · decide
    · exact h c hc
  have h1 : splitLinesKeep (item ++ ['\n']) = [item ++ ['\n']] := by
    have h0 := splitLinesKeep_append item [] h
    simpa [splitLinesKeep] using h0
  have hstrip1 : pyStrip (item ++ ['\n']) = pyStrip item :=
    pyStrip_append_newline item
  have hfirst : check_off_item_with_label item (item ++ ['\n']) =
      ('x' :: ' ' :: item) ++ '\n' :: ['\n'] := by
    simp [check_off_item_with_label, h1, check_off_line, hstrip1, xMark]
  rw [hfirst]
  have h2 := splitLinesKeep_append ('x' :: ' ' :: item) ['\n'] hx
  have h3 : splitLinesKeep ['\n'] = [['\n']] := by decide
  have hstrip2 : pyStrip (('x' :: ' ' :: item) ++ ['\n']) =
      pyStrip ('x' :: ' ' :: item) := pyStrip_append_newline _
  have hnl : pyStrip ['\n'] = [] := by decide
  have hxs : pyStrip ('x' :: ' ' :: item) = 'x' :: stripTrailing (' ' :: item) :=
    pyStrip_cons_of_not_space 'x' (' ' :: item) (by decide)
  simp only [List.cons_append] at h2 hstrip2
  simp [check_off_item_with_label, h2, h3, check_off_line, hstrip2, hnl,
    hxs, xMark]

/-- C10 witness: applying check-off to the one-item file `"a\n"` and
then to the resulting label `"x a"` produces the doubly-marked line
`"x x a"`. -/
theorem C10_check_off_not_idempotent_witness :
    check_off_item_with_label (xMark ++ (("a").data))
      (check_off_item_with_label (("a").data) ((("a").data) ++ ['\n'])) =
      xMark ++ xMark ++ (("a").data) ++ ['\n', '\n', '\n', '\n'] :=
  C10_check_off_not_idempotent (("a").data) (by decide)

theorem pyStrLt_asymm : ∀ a b : PyStr, pyStrLt a b = true → pyStrLt b a = false := by
  intro a
  induction a with
  | nil =>
    intro b h
    cases b with
    | nil => simp [pyStrLt] at h
    | cons y ys => simp [pyStrLt]
  | cons x xs ih =>
    intro b h
    cases b with
    | nil => simp [pyStrLt] at h
    | cons y ys =>
      by_cases h1 : x < y
      · simp [pyStrLt, lt_asymm h1, h1]
      · by_cases h2 : y < x
        · simp [pyStrLt, h1, h2] at h
        · simp [pyStrLt, h1, h2] at h ⊢
          exact ih ys h

theorem pyStrLt_trans : ∀ a b c : PyStr,
    pyStrLt a b = true → pyStrLt b c = true → pyStrLt a c = true := by
  intro a
  induction a with
  | nil =>
    intro b c hab hbc
    cases b with
    | nil => simp [pyStrLt] at hab
    | cons y ys =>
      cases c with
      | nil => simp [pyStrLt] at hbc
      | cons z zs => simp [pyStrLt]
  | cons x xs ih =>
    intro b c hab hbc
    cases b with
    | nil => simp [pyStrLt] at hab
    | cons y ys =>
      cases c with
      | nil => simp [pyStrLt] at hbc
      | cons z zs =>
        by_cases hxy : x < y
        · by_cases hyz : y < z
          · simp [pyStrLt, lt_trans hxy hyz]
          · by_cases hzy : z < y
            · simp [pyStrLt, hyz, hzy] at hbc
            · have hyz2 : y = z :=
                le_antisymm (le_of_not_lt hzy) (le_of_not_lt hyz)
              subst hyz2
              simp [pyStrLt, hxy]
        · by_cases hyx : y < x
          · simp [pyStrLt, hxy, hyx] at hab
          · have hxy2 : x = y :=
              le_antisymm (le_of_not_lt hyx) (le_of_not_lt hxy)
            subst hxy2
            simp [pyStrLt, hxy, hyx] at hab
            by_cases hxz : x < z
            · simp [pyStrLt, hxz]
            · by_cases hzx : z < x
              · simp [pyStrLt, hxz, hzx] at hbc
              · have hxz2 : x = z :=
                  le_antisymm (le_of_not_lt hzx) (le_of_not_lt hxz)
                subst hxz2
                simp [pyStrLt] at hbc ⊢
                exact ih ys zs hab hbc

theorem pyStrLt_of_not_lt_of_lt : ∀ a b c : PyStr,
    pyStrLt b a = false → pyStrLt b c = true → pyStrLt a c = true := by
  intro a
  induction a with
  | nil =>
    intro b c hba hbc
    cases c with
    | nil => cases b <;> simp [pyStrLt] at hbc
    | cons z zs => simp [pyStrLt]
  | cons x xs ih =>
    intro b c hba hbc
    cases b with
    | nil => simp [pyStrLt] at hba
    | cons y ys =>
      cases c with
      | nil => simp [pyStrLt] at hbc
      | cons z zs =>
        by_cases hyx : y < x
        · simp [pyStrLt, hyx] at hba
        · by_cases hxy : x < y
          · by_cases hyz : y < z
            · simp [pyStrLt, lt_trans hxy hyz]
            · by_cases hzy : z < y
              · simp [pyStrLt, hyz, hzy] at hbc
              · have hyz2 : y = z :=
                  le_antisymm (le_of_not_lt hzy) (le_of_not_lt hyz)
                subst hyz2
                simp [pyStrLt, hxy]
          · have hxy2 : x = y :=
              le_antisymm (le_of_not_lt hyx) (le_of_not_lt hxy)
            subst hxy2
            simp [pyStrLt, hyx, hxy] at hba
            by_cases hxz : x < z
            · simp [pyStrLt, hxz]
            · by_cases hzx : z < x
              · simp [pyStrLt, hxz, hzx] at hbc
              · have hxz2 : x = z :=
                  le_antisymm (le_of_not_lt hzx) (le_of_not_lt hxz)
                subst hxz2
                simp [pyStrLt] at hbc ⊢
                exact ih ys zs hba hbc

theorem keyLt_asymm (a b : PyStr) : keyLt a b = true → keyLt b a = false :=
  pyStrLt_asymm _ _

theorem keyLt_trans (a b c : PyStr) :
    keyLt a b = true → keyLt b c = true → keyLt a c = true :=
  pyStrLt_trans _ _ _

theorem mem_insertStable {x a : PyStr} {l : List PyStr}
    (h : x ∈ insertStable a l) : x = a ∨ x ∈ l := by
  induction l with
  | nil => simpa [insertStable] using h
  | cons b bs ih =>
    by_cases hk : keyLt a b = true
    · rw [show insertStable a (b :: bs) = a :: b :: bs from by
        simp [insertStable, hk]] at h
      rcases List.mem_cons.mp h with rfl | h2
      · left; rfl
      · right; exact h2
    · rw [show insertStable a (b :: bs) = b :: insertStable a bs from by
        simp [insertStable, hk]] at h
      rcases List.mem_cons.mp h with rfl | h2
      · right; simp
      · rcases ih h2 with rfl | h3
        · left; rfl
        · right; exact List.mem_cons_of_mem b h3

theorem pairwise_insertStable {a : PyStr} {l : List PyStr}
    (h : l.Pairwise (fun x y => keyLt y x = false)) :
    (insertStable a l).Pairwise (fun x y => keyLt y x = false) := by
  induction l with
  | nil => simp [insertStable]
  | cons b bs ih =>
    rw [List.pairwise_cons] at h
    obtain ⟨hb, hbs⟩ := h
    cases hk : keyLt a b with
    | true =>
      simp only [insertStable, hk, if_pos]
      refine List.Pairwise.cons ?_ (List.Pairwise.cons hb hbs)
      intro y hy
      rcases List.mem_cons.mp hy with rfl | hy2
      · exact keyLt_asymm a y hk
      · cases hya : keyLt y a with
        | false => rfl
        | true =>
          have := keyLt_trans y a b hya hk
          rw [hb y hy2] at this
          exact this.symm
    | false =>
      simp only [insertStable, hk]
      rw [if_neg (by simp)]
      refine List.Pairwise.cons ?_ (ih hbs)
      intro y hy
      rcases mem_insertStable hy with rfl | hy2
      · exact hk
      · exact hb y hy2

theorem pairwise_pySorted_aux :
    ∀ (l acc : List PyStr), acc.Pairwise (fun x y => keyLt y x = false) →
      (l.foldl (fun acc a => insertStable a acc) acc).Pairwise
        (fun x y => keyLt y x = false) := by
  intro l
  induction l with
  | nil => intro acc h; simpa using h
  | cons a t ih =>
    intro acc h
    exact ih _ (pairwise_insertStable h)

theorem pairwise_pySorted (l : List PyStr) :
    (pySorted l).Pairwise (fun x y => keyLt y x = false) :=
  pairwise_pySorted_aux l [] List.Pairwise.nil

theorem pyStrLt_append_left (l m n : PyStr) :
    pyStrLt (l ++ m) (l ++ n) = pyStrLt m n := by
  induction l with
  | nil => rfl
  | cons c t ih => simp [pyStrLt, ih]

theorem pyStrLt_append_self (l m : PyStr) :
    pyStrLt l (l ++ m) = true ↔ m ≠ [] := by
  induction l with
  | nil => cases m <;> simp [pyStrLt]
  | cons c t ih => simpa [pyStrLt] using ih

/-- C3 counterexample: the claim as stated fails on the file
`"zzzzzzzzzzz\nx a\n"` with an empty filter.  The loaded list is
`["", "x a", "zzzzzzzzzzz"]`: the checked-off item `"x a"` (whose sort
key is ten `'z'`s followed by itself) precedes the non-completed item
`"zzzzzzzzzzz"` (eleven `'z'`s), because the eleven-`'z'` item compares
above the completed item's key. -/
theorem C3_counterexample :
    ¬ claimedOrder (load_todo_list [] (("zzzzzzzzzzz\nx a\n").data)) := by
  intro h
  have h12 := h.1 1 2 (by decide) (by decide) (by decide) (by decide)
  exact absurd h12 (by decide)

/-- C3 amended: the loaded list is sorted by the Python sort key
(identity on non-completed items, ten `'z'`s prepended to completed
ones).  Consequently each of the two groups is internally in
alphabetical order, and whenever a completed item precedes a
non-completed one, that non-completed item is lexicographically at
least the string of ten `'z'`s — so every non-completed item below ten
`'z'`s appears before every completed item, but a non-completed item at
or above ten `'z'`s may come after completed items. -/
theorem C3_sorted_by_key (task_filter content : PyStr) :
    (load_todo_list task_filter content).Pairwise (fun a b =>
      keyLt b a = false ∧
      (a.take 2 = xMark → b.take 2 = xMark → pyStrLt b a = false) ∧
      (a.take 2 ≠ xMark → b.take 2 ≠ xMark → pyStrLt b a = false) ∧
      (a.take 2 = xMark → b.take 2 ≠ xMark →
        pyStrLt b (List.replicate 10 'z') = false)) := by
  have hp := pairwise_pySorted
    (List.filter (check_item_for_filter task_filter) (splitNl content))
  refine hp.imp ?_
  intro a b hR
  refine ⟨hR, ?_, ?_, ?_⟩
  · intro ha hb
    have h0 := hR
    simp only [keyLt, pyKey, ha, hb, if_pos] at h0
    rwa [pyStrLt_append_left] at h0
  · intro ha hb
    have h0 := hR
    simp only [keyLt, pyKey, ha, hb, if_neg, reduceIte] at h0
    exact h0
  · intro ha hb
    have h0 := hR
    simp only [keyLt, pyKey, ha, hb, if_pos, reduceIte] at h0
    cases hbz : pyStrLt b (List.replicate 10 'z') with
    | false => rfl
    | true =>
      have hane : a ≠ [] := by
        intro hanil
        rw [hanil] at ha
        simp [xMark] at ha
      have hz : pyStrLt (List.replicate 10 'z')
          (List.replicate 10 'z' ++ a) = true :=
        (pyStrLt_append_self _ _).mpr hane
      have hcon := pyStrLt_trans _ _ _ hbz hz
      rw [h0] at hcon
      exact hcon.symm

/-- C3 witness: the amended ordering statement at the concrete file
`"b\nx a\n"` with the empty filter. -/
theorem C3_sorted_by_key_witness :
    (load_todo_list [] (("b\nx a\n").data)).Pairwise (fun a b =>
      keyLt b a = false ∧
      (a.take 2 = xMark → b.take 2 = xMark → pyStrLt b a = false) ∧
      (a.take 2 ≠ xMark → b.take 2 ≠ xMark → pyStrLt b a = false) ∧
      (a.take 2 = xMark → b.take 2 ≠ xMark →
        pyStrLt b (List.replicate 10 'z') = false)) :=
  C3_sorted_by_key [] (("b\nx a\n").data)

theorem listStartsWith_iff (hay needle : PyStr) :
    listStartsWith hay needle = true ↔ ∃ t, needle ++ t = hay := by
  induction hay generalizing needle with
  | nil =>
    cases needle <;> simp [listStartsWith]
  | cons h hs ih =>
    cases needle with
    | nil => simp [listStartsWith]
    | cons n ns =>
      have hdef : listStartsWith (h :: hs) (n :: ns) =
          (h == n && listStartsWith hs ns) := rfl
      rw [hdef, Bool.and_eq_true, beq_iff_eq, ih]
      constructor
      · rintro ⟨rfl, t, rfl⟩
        exact ⟨t, rfl⟩
      · rintro ⟨t, ht⟩
        injection ht with h1 h2
        exact ⟨h1.symm, t, h2⟩

theorem containsSub_iff (needle hay : PyStr) :
    containsSub needle hay = true ↔ ∃ s t, s ++ needle ++ t = hay := by
  induction hay with
  | nil =>
    rw [show containsSub needle [] = listStartsWith [] needle from rfl,
      listStartsWith_iff]
    constructor
    · rintro ⟨t, ht⟩
      exact ⟨[], t, ht⟩
    · rintro ⟨s, t, ht⟩
      rcases List.append_eq_nil.mp ht with ⟨hs, ht2⟩
      rcases List.append_eq_nil.mp hs with ⟨hs1, hs2⟩
      exact ⟨t, by simp [hs2, ht2]⟩
  | cons c cs ih =>
    rw [show containsSub needle (c :: cs) =
        (listStartsWith (c :: cs) needle || containsSub needle cs) from rfl,
      Bool.or_eq_true, listStartsWith_iff, ih]
    constructor
    · rintro (⟨t, ht⟩ | ⟨s, t, ht⟩)
      · exact ⟨[], t, by simpa using ht⟩
      · exact ⟨c :: s, t, by rw [List.cons_append, List.cons_append, ht]⟩
    · rintro ⟨s, t, ht⟩
      cases s with
      | nil =>
        left
        exact ⟨t, by simpa using ht⟩
      | cons a s =>
        right
        rw [List.cons_append, List.cons_append] at ht
        injection ht with h1 h2
        exact ⟨s, t, h2⟩

/-- C7: the filtering step of the loader keeps the lines in their
original relative order (the result is a sublist of the input), and a
line passes `check_item_for_filter` exactly when the filter string
occurs contiguously inside it — so exactly the lines not containing the
substring are removed. -/
theorem C7_filter_exact (task_filter : PyStr) (lines : List PyStr) :
    List.Sublist (lines.filter (check_item_for_filter task_filter)) lines ∧
    (∀ li : PyStr, check_item_for_filter task_filter li = true ↔
      ∃ s t, s ++ task_filter ++ t = li) ∧
    (∀ li : PyStr, li ∈ lines.filter (check_item_for_filter task_filter) ↔
      li ∈ lines ∧ ∃ s t, s ++ task_filter ++ t = li) := by
  refine ⟨List.filter_sublist lines, fun li => containsSub_iff _ _, fun li => ?_⟩
  rw [List.mem_filter]
  constructor
  · rintro ⟨hmem, hp⟩
    exact ⟨hmem, (containsSub_iff _ _).mp hp⟩
  · rintro ⟨hmem, hex⟩
    exact ⟨hmem, (containsSub_iff _ _).mpr hex⟩

/-- C7 witness: filtering two concrete lines by the filter `"@w"` keeps
order, and the line `"a @w"` passes the filter because `"@w"` occurs in
it. -/
theorem C7_filter_exact_witness :
    List.Sublist (List.filter (check_item_for_filter (("@w").data))
      [("a @w").data, ("b").data]) [("a @w").data, ("b").data] ∧
    check_item_for_filter (("@w").data) (("a @w").data) = true := by
  have h := C7_filter_exact (("@w").data) [("a @w").data, ("b").data]
  refine ⟨h.1, (h.2.1 (("a @w").data)).mpr ⟨("a ").data, [], by decide⟩⟩

/-- C8: the file load fails exactly when opening the file fails; on that
failure it reports `"Error opening file:\n"` followed by the file's path
and terminates with exit status 1 (nonzero), and a load whose open
succeeds always returns a list instead of terminating. -/
theorem C8_load_error_path (todo_filename task_filter : PyStr)
    (openResult : Option PyStr) :
    ((∃ e, load_todo_file todo_filename task_filter openResult =
        Except.error e) ↔ openResult = none) ∧
    (load_todo_file todo_filename task_filter none =
      Except.error ((("Error opening file:\n").data) ++ todo_filename, 1)) ∧
    (∀ msg : PyStr, ∀ code : Nat,
      load_todo_file todo_filename task_filter openResult =
        Except.error (msg, code) → code ≠ 0) ∧
    (∀ content : PyStr, load_todo_file todo_filename task_filter
      (some content) = Except.ok (load_todo_list task_filter content)) := by
  refine ⟨?_, rfl, ?_, fun content => rfl⟩
  · cases openResult with
    | none => simp [load_todo_file]
    | some c => simp [load_todo_file]
  · intro msg code h
    cases openResult with
    | none =>
      simp [load_todo_file] at h
      omega
    | some c => simp [load_todo_file] at h

/-- C8 witness: loading with a failed open of the concrete path `"t"`
yields the error message and exit status 1, and a successful open of
content `"a\n"` yields a list. -/
theorem C8_load_error_path_witness :
    load_todo_file (("t").data) [] none =
      Except.error ((("Error opening file:\n").data) ++ (("t").data), 1) ∧
    load_todo_file (("t").data) [] (some (("a\n").data)) =
      Except.ok (load_todo_list [] (("a\n").data)) := by
  have h := C8_load_error_path (("t").data) [] none
  exact ⟨h.2.1, (C8_load_error_path (("t").data) [] (some (("a\n").data))).2.2.2
    (("a\n").data)⟩

/-- C9 counterexample: a click never un-completes an item.  With the
file `"x a\n"`, activating the handler on the completed item `"x a"`
runs the same check-off rewrite as for any item: the file becomes
`"x x a\n\n"`, whose line still begins with the completion marker, and
it is not the un-completed file `"a\n"` the claim's toggle would
produce. -/
theorem C9_counterexample :
    check_off_item_with_label (("x a").data) (("x a\n").data) =
      (("x x a\n\n").data) ∧
    (("x x a\n\n").data).take 2 = xMark ∧
    check_off_item_with_label (("x a").data) (("x a\n").data) ≠
      (("a\n").data) := by
  refine ⟨by decide, by decide, by decide⟩

/-- C9 amended: a click on a non-completed item marks it completed —
every line matching the clicked label is rewritten with the `"x "`
prefix — while completed items are built into the menu insensitive
(grayed out), so they cannot be activated; no operation removes the
completion marker. -/
theorem C9_click_semantics (tl : List PyStr) (label line : PyStr)
    (lines : List PyStr) :
    (tl ≠ [] → ∀ p ∈ build_menu tl, (p.2 = false ↔ p.1.take 2 = xMark)) ∧
    (line ∈ lines → pyStrip line = pyStrip label →
      (xMark ++ line ++ ['\n']) ∈ (lines.map (check_off_line label))) := by
  constructor
  · intro htl p hp
    rw [build_menu, if_neg htl] at hp
    obtain ⟨item, hitem, rfl⟩ := List.mem_map.mp hp
    by_cases hx : item.take 2 = xMark <;> simp [hx]
  · intro hmem hstrip
    refine List.mem_map.mpr ⟨line, hmem, ?_⟩
    simp [check_off_line, hstrip]

/-- C9 witness: in the menu built from `["a", "x b"]` the completed
entry is insensitive, and checking off the matching line `"a"` produces
the `"x "`-prefixed output line. -/
theorem C9_click_semantics_witness :
    (((("x b").data, false) : PyStr × Bool).2 = false ↔
      (((("x b").data, false) : PyStr × Bool)).1.take 2 = xMark) ∧
    (xMark ++ (("a").data) ++ ['\n']) ∈
      ([("a").data].map (check_off_line (("a").data))) := by
  have h := C9_click_semantics [("a").data, ("x b").data] (("a").data)
    (("a").data) [("a").data]
  refine ⟨h.1 (by decide) ((("x b").data, false)) (by decide),
    h.2 (by decide) rfl⟩
